import Mathlib

/-
Verification of the line-bot ground-reservation system.

Shallow embedding of the Python source:
  reservation_parser.py : `_parse_response` normalization (hours rounding,
                          end-time derivation)
  config.py             : `get_default_config` pricing table
  main.py               : `calculate_fee`, `process_reservation`
  calendar_service.py   : `check_conflict`
  sheets_service.py     : `get_monthly_summary`, `get_today_reservations`

External stores (Google Calendar, Google Sheets, Discord, LINE replies)
are modelled as explicit inputs/outputs: query results are passed in, and
writes are recorded as an effect list.
-/

namespace LineBot

deriving instance DecidableEq for Except

/-- Python truthiness of an optional string field as used by
`parsed.get("field")` checks: absent (`None`) and the empty string are
falsy, every other string is truthy. -/
def truthy (o : Option String) : Bool :=
  match o with
  | none => false
  | some s => s ≠ ""

/-- The candidate reservation record produced by the extractor
(the JSON object decoded in `_parse_response`).  Absent keys are `none`. -/
structure Candidate where
  is_reservation : Bool
  date : Option String
  start_time : Option String
  end_time : Option String
  hours : Option Int
  court : Option String
  category : Option String
  category_label : Option String
  is_weekend : Option Bool
  name : Option String
  phone : Option String
  notes : Option String
deriving DecidableEq

/-- A candidate with every field absent, used as a base for concrete
candidates in examples. -/
def emptyCand : Candidate :=
  { is_reservation := false, date := none, start_time := none,
    end_time := none, hours := none, court := none, category := none,
    category_label := none, is_weekend := none, name := none,
    phone := none, notes := none }

/-- Hours normalization from `reservation_parser._parse_response`:
`h = data.get("hours", 2); if h < 2: h = 2; elif h % 2 != 0: h = h + 1`. -/
def normHours (o : Option Int) : Int :=
  let h := o.getD 2
  if h < 2 then 2 else if h % 2 ≠ 0 then h + 1 else h

/-- Value of a decimal digit character, `none` on any other character. -/
def digitVal (c : Char) : Option Nat :=
  if c.isDigit then some (c.toNat - 48) else none

/-- Decimal digit character for a value below 10. -/
def digitCh (n : Nat) : Char := Char.ofNat (48 + n)

/-- Parse an `"H:MM"`-style string to minutes past midnight, modelling
`datetime.strptime(s, "%H:%M")`: one or two digits per component,
hour below 24, minute below 60; `none` models the raised `ValueError`. -/
def parseTime (s : String) : Option Nat :=
  match s.data with
  | [a, b, c] =>
    if b = ':' then
      match digitVal a, digitVal c with
      | some h1, some m1 =>
        if h1 < 24 ∧ m1 < 60 then some (h1 * 60 + m1) else none
      | _, _ => none
    else none
  | [a, b, c, d] =>
    if b = ':' then
      match digitVal a, digitVal c, digitVal d with
      | some h1, some m1, some m2 =>
        if h1 < 24 ∧ 10 * m1 + m2 < 60 then some (h1 * 60 + (10 * m1 + m2)) else none
      | _, _, _ => none
    else if c = ':' then
      match digitVal a, digitVal b, digitVal d with
      | some h1, some h2, some m1 =>
        if 10 * h1 + h2 < 24 ∧ m1 < 60 then some ((10 * h1 + h2) * 60 + m1) else none
      | _, _, _ => none
    else none
  | [a, b, c, d, e] =>
    if c = ':' then
      match digitVal a, digitVal b, digitVal d, digitVal e with
      | some h1, some h2, some m1, some m2 =>
        if 10 * h1 + h2 < 24 ∧ 10 * m1 + m2 < 60 then
          some ((10 * h1 + h2) * 60 + (10 * m1 + m2))
        else none
      | _, _, _, _ => none
    else none
  | _ => none

/-- Format minutes past midnight as zero-padded `"HH:MM"`, modelling
`strftime("%H:%M")` on the computed datetime. -/
def fmtTime (m : Nat) : String :=
  ⟨[digitCh (m / 60 / 10), digitCh (m / 60 % 10), ':',
    digitCh (m % 60 / 10), digitCh (m % 60 % 10)]⟩

/-- The normalization `reservation_parser._parse_response` applies to the
decoded candidate (the JSON decoding and code-fence stripping are input
decoding, outside this model).  When the candidate is a reservation the
hours are corrected to the 2-hour unit, and when a truthy start time is
present with no truthy end time the end time is computed as
start + hours (`strftime` keeps only the time of day, hence mod 1440).
`Except.error` models the `ValueError` raised by `strptime` on an
unparseable start time, which aborts the parse. -/
def parseResponse (data : Candidate) : Except Unit Candidate :=
  if data.is_reservation then
    let h := normHours data.hours
    let d := { data with hours := some h }
    if truthy d.start_time ∧ ¬ truthy d.end_time then
      match parseTime (d.start_time.getD "") with
      | none => Except.error ()
      | some s =>
        Except.ok { d with end_time := some (fmtTime ((s + 60 * h.toNat) % 1440)) }
    else Except.ok d
  else Except.ok data

/-- Per-category pricing entry from `config.get_default_config`. -/
structure CatCfg where
  label : String
  weekday : Int
  weekend : Int
deriving DecidableEq

/-- The general tier from `config.get_default_config`. -/
def generalCat : CatCfg := { label := "一般", weekday := 12000, weekend := 13000 }

/-- The pricing categories table from `config.get_default_config`. -/
def categories : List (String × CatCfg) :=
  [("elementary",  { label := "小学生",    weekday := 6000,  weekend := 7000 }),
   ("middle_high", { label := "中・高校生", weekday := 7000,  weekend := 8000 }),
   ("general",     generalCat)]

/-- Category lookup with fallback, modelling
`cfg["categories"].get(category, cfg["categories"]["general"])`. -/
def getCat (c : String) : CatCfg :=
  (categories.lookup c).getD generalCat

/-- The fee breakdown returned by `main.calculate_fee`. -/
structure Fee where
  category : String
  category_label : String
  rate_per_hour : Int
  hours : Int
  total : Int
  is_weekend : Bool
  payment_method : String
deriving DecidableEq

/-- Embedding of `main.calculate_fee`: rate is the category's weekend rate
when `is_weekend` (defaulting to `False`) and its weekday rate otherwise,
with an unrecognized category falling back to the general tier, and
`total = rate_per_hour * hours` (both integers, so `int(total)` is the
identity). -/
def calculateFee (parsed : Candidate) : Fee :=
  let hours := parsed.hours.getD 2
  let category := parsed.category.getD "general"
  let is_weekend := parsed.is_weekend.getD false
  let cat := getCat category
  let rate := if is_weekend then cat.weekend else cat.weekday
  { category := category,
    category_label := parsed.category_label.getD cat.label,
    rate_per_hour := rate,
    hours := hours,
    total := rate * hours,
    is_weekend := is_weekend,
    payment_method := "前払い（請求書）" }

/-- A calendar event as returned by the calendar store query; the conflict
check reads only its `summary` label. -/
structure CalEvent where
  id : String
  summary : String
deriving DecidableEq

/-- Substring containment, modelling Python's `needle in haystack` on
strings: some contiguous run of `hay`'s characters equals `needle`. -/
def strContains (needle hay : String) : Bool :=
  (List.range (hay.data.length + 1)).any
    (fun i => needle.data.isPrefixOf (hay.data.drop i))

/-- Embedding of `calendar_service.check_conflict`.  The external
`events().list` call over the request window `[start, end)` is modelled by
its result `q`: either the listed events or an error (which also covers
the `fromisoformat` failures inside the same `try`).  A conflict is
reported iff some listed event's summary contains the court string; every
error path returns `false` (the `except` clause logs and returns
`False`). -/
def checkConflict (q : Except String (List CalEvent)) (court : String) : Bool :=
  match q with
  | Except.error _ => false
  | Except.ok items => items.any (fun it => strContains court it.summary)

/-- External writes performed by `process_reservation`, in order. -/
inductive Effect where
  | calendarCreated (eventId : String)
  | ledgerAppended (calendarEventId : String)
  | conflictNotified
  | newReservationNotified
deriving DecidableEq

/-- The reply `process_reservation` sends to the requester:
`missingInfo` is the itemized missing-field message, `conflictReply` the
slot-taken message, `confirmed` the confirmation text, and `systemError`
the fixed generic system-error message sent from the `except` handler. -/
inductive Outcome where
  | missingInfo (fields : List String)
  | conflictReply
  | confirmed
  | systemError
deriving DecidableEq

/-- Results of the external store calls made during one
`process_reservation` run: the calendar query for the request's window,
the calendar event creation, and the ledger append. -/
structure ExtEnv where
  queryResult : Except String (List CalEvent)
  createResult : Except String String
  appendResult : Except String Nat

/-- The missing required-field labels collected by `process_reservation`
(date, start time, name, in this order; Python truthiness, so an empty
string also counts as missing). -/
def missingFields (p : Candidate) : List String :=
  (if truthy p.date then [] else ["ご利用日"])
    ++ (if truthy p.start_time then [] else ["開始時間"])
    ++ (if truthy p.name then [] else ["お名前"])

/-- Embedding of `main.process_reservation`: missing-field validation,
then conflict check (which reads `parsed["end_time"]`, whose absence
raises `KeyError` into the generic handler), then fee computation,
calendar write, ledger append and notification.  Returns the reply
outcome together with the list of external writes performed, in order.
Exceptions from the store writes are caught by the surrounding `except`,
which replies with the generic system-error message. -/
def process (env : ExtEnv) (p : Candidate) : Outcome × List Effect :=
  if missingFields p = [] then
    match p.end_time with
    | none => (Outcome.systemError, [])
    | some _ =>
      let court := p.court.getD "人工芝"
      if checkConflict env.queryResult court then
        (Outcome.conflictReply, [Effect.conflictNotified])
      else
        match env.createResult with
        | Except.error _ => (Outcome.systemError, [])
        | Except.ok evId =>
          match env.appendResult with
          | Except.error _ => (Outcome.systemError, [Effect.calendarCreated evId])
          | Except.ok _ =>
            (Outcome.confirmed,
             [Effect.calendarCreated evId, Effect.ledgerAppended evId,
              Effect.newReservationNotified])
  else (Outcome.missingInfo (missingFields p), [])

/-- Digit-string value: `some` of the decimal value when the characters
are one or more digits, `none` otherwise. -/
def digitsVal (l : List Char) : Option Nat :=
  if l ≠ [] ∧ l.all (·.isDigit) then
    some (l.foldl (fun a c => 10 * a + (c.toNat - 48)) 0)
  else none

/-- Model of Python `int(s)` on a cell: strip surrounding whitespace,
accept an optional sign followed by digits; anything else is a
`ValueError` (`none`). -/
def pyInt (s : String) : Option Int :=
  let t := ((s.data.dropWhile (·.isWhitespace)).reverse.dropWhile
    (·.isWhitespace)).reverse
  match t with
  | [] => none
  | c :: ds =>
    if c = '-' then (digitsVal ds).map (fun n => -(n : Int))
    else if c = '+' then (digitsVal ds).map (fun n => (n : Int))
    else (digitsVal (c :: ds)).map (fun n => (n : Int))

/-- Two-digit formatting of the month, modelling `f"{month:02d}"`. -/
def pad2Int (m : Int) : String :=
  if 0 ≤ m ∧ m < 10 then "0" ++ toString m else toString m

/-- The `"YYYY-MM"` key `get_monthly_summary` matches row dates against,
modelling `f"{year}-{month:02d}"`. -/
def monthKey (year month : Int) : String :=
  toString year ++ "-" ++ pad2Int month

/-- Status cell of a ledger row: `row[14] if len(row) > 14 else ""`. -/
def rowStatus (row : List String) : String := row.getD 14 ""

/-- Row selection in `get_monthly_summary`:
`len(row) > 2 and row[2].startswith(prefix)`. -/
def rowInMonth (row : List String) (year month : Int) : Bool :=
  row.length > 2 ∧ (row.getD 2 "").startsWith (monthKey year month)

/-- Fee contribution of a row in `get_monthly_summary`:
`int(row[12]) if len(row) > 12 else 0`, with the `ValueError` of a
malformed cell caught and skipped (contributing 0). -/
def feeCell (row : List String) : Int :=
  if row.length > 12 then (pyInt (row.getD 12 "")).getD 0 else 0

/-- The summary record returned by `get_monthly_summary`. -/
structure MonthlySummary where
  year : Int
  month : Int
  count : Int
  cancelled : Int
  total_fee : Int
deriving DecidableEq

/-- One loop iteration of `get_monthly_summary` over accumulator
`(count, cancelled, total_fee)`: a row of the requested month is counted
as cancelled when its status is `"キャンセル"`, and otherwise adds one to
the count and its fee cell to the total. -/
def summaryStep (year month : Int) (acc : Int × Int × Int) (row : List String) :
    Int × Int × Int :=
  if rowInMonth row year month then
    if rowStatus row = "キャンセル" then (acc.1, acc.2.1 + 1, acc.2.2)
    else (acc.1 + 1, acc.2.1, acc.2.2 + feeCell row)
  else acc

/-- Embedding of `sheets_service.get_monthly_summary` applied to the rows
returned by the ledger read (range `A2:Q1000`): a single pass that counts
cancelled rows of the month separately and accumulates count and fee over
the others. -/
def getMonthlySummary (rows : List (List String)) (year month : Int) :
    MonthlySummary :=
  let r := rows.foldl (summaryStep year month) (0, 0, 0)
  { year := year, month := month, count := r.1, cancelled := r.2.1,
    total_fee := r.2.2 }

/-- A listing entry built by `get_today_reservations`. -/
structure TodayRec where
  id : String
  date : String
  time : String
  court : String
  name : String
  phone : String
  category : String
  fee : String
deriving DecidableEq

/-- The record `get_today_reservations` builds from a ledger row
(`row[k] if len(row) > k else ""` for each field). -/
def buildTodayRec (row : List String) : TodayRec :=
  { id := row.getD 0 "",
    date := row.getD 2 "",
    time := if row.length > 5 then row.getD 4 "" ++ "〜" ++ row.getD 5 "" else "",
    court := row.getD 6 "",
    name := row.getD 7 "",
    phone := row.getD 8 "",
    category := row.getD 9 "",
    fee := row.getD 12 "" }

/-- Embedding of `sheets_service.get_today_reservations` applied to the
rows returned by the ledger read: keep rows of today's date that are not
cancelled, build listing records, and sort by the time text ascending. -/
def getTodayReservations (rows : List (List String)) (today : String) :
    List TodayRec :=
  let recs := (rows.filter
    (fun row => row.length > 2 ∧ row.getD 2 "" = today
      ∧ rowStatus row ≠ "キャンセル")).map buildTodayRec
  recs.mergeSort (fun a b => a.time ≤ b.time)

/-- The rows the Sheets read range `A2:Q1000` denotes on a full sheet
whose first row is the header: sheet rows 2 through 1000, i.e. at most
999 data rows.  Both ledger read operations use exactly this range. -/
def readSheetRange (sheet : List (List String)) : List (List String) :=
  (sheet.drop 1).take 999

/-- Today's listing computed from the full sheet through the fixed
`A2:Q1000` read range. -/
def getTodayFromSheet (sheet : List (List String)) (today : String) :
    List TodayRec :=
  getTodayReservations (readSheetRange sheet) today

/-- Monthly summary computed from the full sheet through the fixed
`A2:Q1000` read range. -/
def getMonthlyFromSheet (sheet : List (List String)) (year month : Int) :
    MonthlySummary :=
  getMonthlySummary (readSheetRange sheet) year month

/-- Days since 1970-01-01 of a civil date (proleptic Gregorian). -/
def daysFromCivil (y m d : Int) : Int :=
  let y2 := if m ≤ 2 then y - 1 else y
  let era := (if 0 ≤ y2 then y2 else y2 - 399) / 400
  let yoe := y2 - era * 400
  let mp := if m > 2 then m - 3 else m + 9
  let doy := (153 * mp + 2) / 5 + d - 1
  let doe := yoe * 365 + yoe / 4 - yoe / 100 + doy
  era * 146097 + doe - 719468

/-- Weekday of a civil date with Monday = 0 … Sunday = 6, matching
Python's `date.weekday()`. -/
def weekdayOf (y m d : Int) : Int := (daysFromCivil y m d + 3) % 7

/-- Parse a `"YYYY-MM-DD"` date string into its numeric components. -/
def parseDate (s : String) : Option (Int × Int × Int) :=
  match s.data with
  | [y1, y2, y3, y4, s1, m1, m2, s2, d1, d2] =>
    if s1 = '-' ∧ s2 = '-' then
      match digitVal y1, digitVal y2, digitVal y3, digitVal y4,
        digitVal m1, digitVal m2, digitVal d1, digitVal d2 with
      | some a, some b, some c, some d, some e, some f, some g, some k =>
        some (((1000 * a + 100 * b + 10 * c + d : Nat) : Int),
          ((10 * e + f : Nat) : Int), ((10 * g + k : Nat) : Int))
      | _, _, _, _, _, _, _, _ => none
    else none
  | _ => none

/-- Modelled from the spec: the day-type derivation the spec attributes to
the normalizer — "if not explicitly supplied, derive from the date's
weekday against a configurable weekend definition (Saturday/Sunday by
default)".  The source under `src/` contains no such derivation; this
definition follows the spec's words so the claim can be compared with the
code's behaviour. -/
def specDerivedWeekend (o : Option String) : Bool :=
  match o with
  | none => false
  | some s =>
    match parseDate s with
    | some (y, m, d) => 5 ≤ weekdayOf y m d
    | none => false

theorem digitVal_digitCh : ∀ k, k < 10 → digitVal (digitCh k) = some k := by decide

theorem parseTime_fmtTime (m : Nat) (h : m < 1440) : parseTime (fmtTime m) = some m := by
  have h1 : m / 60 / 10 < 10 := by omega
  have h2 : m / 60 % 10 < 10 := by omega
  have h3 : m % 60 / 10 < 10 := by omega
  have h4 : m % 60 % 10 < 10 := by omega
  have e1 := digitVal_digitCh _ h1
  have e2 := digitVal_digitCh _ h2
  have e3 := digitVal_digitCh _ h3
  have e4 := digitVal_digitCh _ h4
  show (if (':' : Char) = ':' then
      match digitVal (digitCh (m / 60 / 10)), digitVal (digitCh (m / 60 % 10)),
        digitVal (digitCh (m % 60 / 10)), digitVal (digitCh (m % 60 % 10)) with
      | some h1, some h2, some m1, some m2 =>
        if 10 * h1 + h2 < 24 ∧ 10 * m1 + m2 < 60 then
          some ((10 * h1 + h2) * 60 + (10 * m1 + m2))
        else none
      | _, _, _, _ => none
    else none) = some m
  rw [if_pos rfl, e1, e2, e3, e4]
  show (if 10 * (m / 60 / 10) + m / 60 % 10 < 24 ∧ 10 * (m % 60 / 10) + m % 60 % 10 < 60 then
      some ((10 * (m / 60 / 10) + m / 60 % 10) * 60 + (10 * (m % 60 / 10) + m % 60 % 10))
    else none) = some m
  rw [if_pos (by omega)]
  simp only [Option.some.injEq]
  omega

theorem parseResponse_ok_cases (c c' : Candidate) (h : parseResponse c = Except.ok c') :
    (c.is_reservation = false ∧ c' = c)
  ∨ (c.is_reservation = true ∧ ¬(truthy c.start_time = true ∧ ¬truthy c.end_time = true)
      ∧ c' = { c with hours := some (normHours c.hours) })
  ∨ (c.is_reservation = true ∧ truthy c.start_time = true ∧ ¬truthy c.end_time = true
      ∧ ∃ s, parseTime (c.start_time.getD "") = some s
        ∧ c' = { c with
            hours := some (normHours c.hours)
            end_time := some (fmtTime ((s + 60 * (normHours c.hours).toNat) % 1440)) }) := by
  unfold parseResponse at h
  simp only [] at h
  split at h
  next hr =>
    split at h
    next hcond =>
      split at h
      next hpt => exact absurd h (by simp)
      next s hpt =>
        right; right
        refine ⟨hr, hcond.1, hcond.2, s, hpt, ?_⟩
        injection h with h2
        exact h2.symm
    next hcond =>
      right; left
      refine ⟨hr, hcond, ?_⟩
      injection h with h2
      exact h2.symm
  next hr =>
    left
    refine ⟨by simpa using hr, ?_⟩
    injection h with h2
    exact h2.symm

end LineBot
namespace LineBot

/-- Concrete candidate: a Saturday reservation (2025-05-24) with no
explicit weekend flag. -/
def satCand : Candidate :=
  { emptyCand with
    is_reservation := true
    date := some "2025-05-24"
    start_time := some "09:00"
    hours := some 2
    name := some "田中" }

/-- The normalizer's output on `satCand`. -/
def satCandN : Candidate := { satCand with end_time := some "11:00" }

/-- C1 counterexample -/
theorem dayType_not_derived_counterexample :
    satCand.is_weekend = none
    ∧ parseResponse satCand = Except.ok satCandN
    ∧ specDerivedWeekend satCandN.date = true
    ∧ (calculateFee satCandN).is_weekend = false := by
  refine ⟨rfl, by decide, by decide, rfl⟩

/-- C1 amended -/
theorem dayType_from_flag_default_weekday (c c' : Candidate)
    (h : parseResponse c = Except.ok c') :
    c'.is_weekend = c.is_weekend
    ∧ (calculateFee c').is_weekend = c.is_weekend.getD false := by
  have hw : c'.is_weekend = c.is_weekend := by
    rcases parseResponse_ok_cases c c' h with ⟨_, rfl⟩ | ⟨_, _, rfl⟩ | ⟨_, _, _, s, _, rfl⟩ <;> rfl
  exact ⟨hw, by simp [calculateFee, hw]⟩

def flagCand : Candidate :=
  { satCand with date := some "2025-05-23", is_weekend := some true }

def flagCandN : Candidate := { flagCand with end_time := some "11:00" }

/-- C1 witness -/
theorem dayType_from_flag_witness :
    flagCandN.is_weekend = flagCand.is_weekend
    ∧ (calculateFee flagCandN).is_weekend = flagCand.is_weekend.getD false :=
  dayType_from_flag_default_weekday flagCand flagCandN (by decide)

def endCand : Candidate :=
  { emptyCand with
    is_reservation := true
    date := some "2025-05-23"
    start_time := some "09:00"
    end_time := some "10:00"
    hours := some 2
    name := some "田中" }

/-- C2 counterexample -/
theorem end_time_kept_counterexample :
    parseResponse endCand = Except.ok endCand
    ∧ endCand.hours = some 2
    ∧ parseTime (endCand.start_time.getD "") = some 540
    ∧ parseTime (endCand.end_time.getD "") = some 600
    ∧ some (600 : Nat) ≠
        some ((540 + 60 * ((endCand.hours.getD 2).toNat)) % 1440) := by decide

/-- C2 amended -/
theorem end_time_start_plus_hours_when_absent (c c' : Candidate)
    (h : parseResponse c = Except.ok c') :
    (truthy c.end_time = true → c'.end_time = c.end_time)
    ∧ (c.is_reservation = true → truthy c.start_time = true → truthy c.end_time = false →
        ∃ s, parseTime (c.start_time.getD "") = some s ∧
          parseTime (c'.end_time.getD "") =
            some ((s + 60 * (c'.hours.getD 2).toNat) % 1440)) := by
  rcases parseResponse_ok_cases c c' h with ⟨hr, rfl⟩ | ⟨hr, hcond, rfl⟩ | ⟨hr, hst, het, s, hpt, rfl⟩
  · refine ⟨fun _ => rfl, fun hr2 _ _ => ?_⟩
    rw [hr] at hr2; cases hr2
  · refine ⟨fun _ => rfl, fun _ h1 h2 => ?_⟩
    exact absurd ⟨h1, by simp [h2]⟩ hcond
  · refine ⟨fun het2 => absurd het2 het, fun _ _ _ => ⟨s, hpt, ?_⟩⟩
    show parseTime (fmtTime ((s + 60 * (normHours c.hours).toNat) % 1440)) =
      some ((s + 60 * (normHours c.hours).toNat) % 1440)
    exact parseTime_fmtTime _ (Nat.mod_lt _ (by omega))

/-- C2 witness -/
theorem end_time_witness :
    truthy satCand.end_time = false
    ∧ (∃ s, parseTime (satCand.start_time.getD "") = some s ∧
        parseTime (satCandN.end_time.getD "") =
          some ((s + 60 * (satCandN.hours.getD 2).toNat) % 1440)) :=
  ⟨by decide,
   (end_time_start_plus_hours_when_absent satCand satCandN (by decide)).2
     (by decide) (by decide) (by decide)⟩

/-- C3 -/
theorem hours_rounded_up (c c' : Candidate) (h1 : c.is_reservation = true)
    (h2 : parseResponse c = Except.ok c') :
    c'.hours = some (normHours c.hours)
    ∧ normHours c.hours = max 2 (2 * ((c.hours.getD 2 + 1) / 2))
    ∧ c.hours.getD 2 ≤ normHours c.hours
    ∧ 2 ≤ normHours c.hours
    ∧ normHours c.hours % 2 = 0
    ∧ normHours (some 3) = 4 ∧ normHours (some 1) = 2 ∧ normHours (some 4) = 4
    ∧ normHours none = 2 := by
  have hh : c'.hours = some (normHours c.hours) := by
    rcases parseResponse_ok_cases c c' h2 with ⟨hr, rfl⟩ | ⟨_, _, rfl⟩ | ⟨_, _, _, s, _, rfl⟩
    · rw [h1] at hr; cases hr
    · rfl
    · rfl
  refine ⟨hh, ?_, ?_, ?_, ?_, by decide, by decide, by decide, by decide⟩ <;>
    (unfold normHours; simp only []; generalize c.hours.getD 2 = v; split_ifs <;> omega)

def oddCand : Candidate :=
  { emptyCand with
    is_reservation := true
    date := some "2025-05-23"
    start_time := some "09:00"
    hours := some 3
    name := some "山田" }

def oddCandN : Candidate := { oddCand with hours := some 4, end_time := some "13:00" }

/-- C3 witness -/
theorem hours_rounded_up_witness :
    oddCandN.hours = some (normHours oddCand.hours)
    ∧ normHours oddCand.hours = max 2 (2 * ((oddCand.hours.getD 2 + 1) / 2)) := by
  have h := hours_rounded_up oddCand oddCandN rfl (by decide)
  exact ⟨h.1, h.2.1⟩

def genCand : Candidate :=
  { emptyCand with category := some "general", is_weekend := some false, hours := some 2 }

/-- C4 -/
theorem fee_is_rate_times_hours (p : Candidate) :
    (calculateFee p).total = (calculateFee p).rate_per_hour * (calculateFee p).hours
    ∧ (calculateFee p).hours = p.hours.getD 2
    ∧ (calculateFee p).rate_per_hour =
        (if p.is_weekend.getD false
         then (getCat (p.category.getD "general")).weekend
         else (getCat (p.category.getD "general")).weekday)
    ∧ (p.category.getD "general" ∉ ["elementary", "middle_high", "general"] →
        getCat (p.category.getD "general") = generalCat)
    ∧ (calculateFee genCand).rate_per_hour = 12000
    ∧ (calculateFee genCand).total = 24000 := by
  refine ⟨rfl, rfl, rfl, ?_, by decide, by decide⟩
  intro hmem
  have h1 : p.category.getD "general" ≠ "elementary" := fun e => hmem (by simp [e])
  have h2 : p.category.getD "general" ≠ "middle_high" := fun e => hmem (by simp [e])
  have h3 : p.category.getD "general" ≠ "general" := fun e => hmem (by simp [e])
  have b1 : (p.category.getD "general" == "elementary") = false := beq_eq_false_iff_ne.mpr h1
  have b2 : (p.category.getD "general" == "middle_high") = false := beq_eq_false_iff_ne.mpr h2
  have b3 : (p.category.getD "general" == "general") = false := beq_eq_false_iff_ne.mpr h3
  simp [getCat, categories, List.lookup, b1, b2, b3]

def vipCand : Candidate :=
  { emptyCand with category := some "club", is_weekend := some true, hours := some 4 }

/-- C4 witness -/
theorem fee_is_rate_times_hours_witness :
    (calculateFee vipCand).total
      = (calculateFee vipCand).rate_per_hour * (calculateFee vipCand).hours
    ∧ getCat "club" = generalCat := by
  have h := fee_is_rate_times_hours vipCand
  exact ⟨h.1, h.2.2.2.1 (by decide)⟩

def noStoreEnv : ExtEnv :=
  { queryResult := Except.error "unavailable"
    createResult := Except.error "unavailable"
    appendResult := Except.error "unavailable" }

/-- C5 -/
theorem missing_fields_all_reported (env : ExtEnv) (p : Candidate)
    (h : missingFields p ≠ []) :
    process env p = (Outcome.missingInfo (missingFields p), [])
    ∧ (truthy p.date = false ↔ "ご利用日" ∈ missingFields p)
    ∧ (truthy p.start_time = false ↔ "開始時間" ∈ missingFields p)
    ∧ (truthy p.name = false ↔ "お名前" ∈ missingFields p) := by
  refine ⟨by simp [process, h], ?_, ?_, ?_⟩ <;>
    (unfold missingFields;
     cases truthy p.date <;> cases truthy p.start_time <;> cases truthy p.name <;> simp)

def missCand : Candidate :=
  { emptyCand with is_reservation := true, start_time := some "09:00" }

/-- C5 witness -/
theorem missing_fields_witness :
    process noStoreEnv missCand = (Outcome.missingInfo ["ご利用日", "お名前"], [])
    ∧ "ご利用日" ∈ missingFields missCand
    ∧ "お名前" ∈ missingFields missCand := by
  have h := missing_fields_all_reported noStoreEnv missCand (by decide)
  refine ⟨?_, h.2.1.mp (by decide), h.2.2.2.mp (by decide)⟩
  rw [h.1]
  decide

theorem strContains_eq_true_iff (n h : String) :
    strContains n h = true ↔ ∃ s t : List Char, s ++ n.data ++ t = h.data := by
  unfold strContains
  rw [List.any_eq_true]
  constructor
  · rintro ⟨i, _, hpre⟩
    rw [List.isPrefixOf_iff_prefix] at hpre
    rcases hpre with ⟨t, ht⟩
    exact ⟨h.data.take i, t, by rw [List.append_assoc, ht, List.take_append_drop]⟩
  · rintro ⟨s, t, hst⟩
    refine ⟨s.length, ?_, ?_⟩
    · rw [List.mem_range]
      have hle : s.length ≤ h.data.length := by
        rw [← hst]; simp
      omega
    · rw [List.isPrefixOf_iff_prefix]
      refine ⟨t, ?_⟩
      have hd : h.data.drop s.length = n.data ++ t := by
        rw [← hst, List.append_assoc, List.drop_left]
      rw [hd]

/-- C6 -/
theorem conflict_iff_matching_event (q : Except String (List CalEvent)) (court : String) :
    (checkConflict q court = true ↔
      ∃ items, q = Except.ok items ∧
        ∃ e ∈ items, ∃ s t : List Char, s ++ court.data ++ t = e.summary.data)
    ∧ (∀ msg, checkConflict (Except.error msg) court = false) := by
  refine ⟨?_, fun _ => rfl⟩
  cases q with
  | error m => simp [checkConflict]
  | ok items =>
    simp only [checkConflict]
    rw [List.any_eq_true]
    constructor
    · rintro ⟨e, he, hc⟩
      exact ⟨items, rfl, e, he, (strContains_eq_true_iff _ _).mp hc⟩
    · rintro ⟨items2, heq, e, he, hst⟩
      injection heq with heq2
      subst heq2
      exact ⟨e, he, (strContains_eq_true_iff _ _).mpr hst⟩

theorem ledger_row_has_created_event (env : ExtEnv) (p : Candidate) (evId : String)
    (hmem : Effect.ledgerAppended evId ∈ (process env p).2) :
    Effect.calendarCreated evId ∈ (process env p).2
    ∧ env.createResult = Except.ok evId := by
  by_cases hmf : missingFields p = []
  · cases het : p.end_time with
    | none => simp [process, hmf, het] at hmem
    | some et =>
      by_cases hc : checkConflict env.queryResult (p.court.getD "人工芝") = true
      · simp [process, hmf, het, hc] at hmem
      · cases hcr : env.createResult with
        | error m => simp [process, hmf, het, hc, hcr] at hmem
        | ok evId2 =>
          cases har : env.appendResult with
          | error m => simp [process, hmf, het, hc, hcr, har] at hmem
          | ok r =>
            have hmem2 := hmem
            simp [process, hmf, het, hc, hcr, har] at hmem2
            subst hmem2
            constructor
            · simp [process, hmf, het, hc, hcr, har]
            · rfl
  · simp [process, hmf] at hmem

/-- C7 -/
theorem calendar_failure_aborts (env : ExtEnv) (p : Candidate) (et msg : String)
    (h1 : missingFields p = []) (h2 : p.end_time = some et)
    (h3 : checkConflict env.queryResult (p.court.getD "人工芝") = false)
    (h4 : env.createResult = Except.error msg) :
    process env p = (Outcome.systemError, [])
    ∧ (∀ env2 p2 evId, Effect.ledgerAppended evId ∈ (process env2 p2).2 →
        Effect.calendarCreated evId ∈ (process env2 p2).2
        ∧ env2.createResult = Except.ok evId) := by
  constructor
  · simp [process, h1, h2, h3, h4]
  · intro env2 p2 evId hmem
    exact ledger_row_has_created_event env2 p2 evId hmem

def fullCand : Candidate :=
  { emptyCand with
    is_reservation := true
    date := some "2025-05-23"
    start_time := some "09:00"
    end_time := some "11:00"
    hours := some 2
    name := some "田中" }

def createFailEnv : ExtEnv :=
  { queryResult := Except.ok []
    createResult := Except.error "boom"
    appendResult := Except.ok 2 }

/-- C7 witness -/
theorem calendar_failure_aborts_witness :
    process createFailEnv fullCand = (Outcome.systemError, [])
    ∧ (∀ env2 p2 evId, Effect.ledgerAppended evId ∈ (process env2 p2).2 →
        Effect.calendarCreated evId ∈ (process env2 p2).2
        ∧ env2.createResult = Except.ok evId) :=
  calendar_failure_aborts createFailEnv fullCand "11:00" "boom"
    (by decide) (by decide) (by decide) (by decide)

/-- C8 -/
theorem conflict_rejected_with_notification (env : ExtEnv) (p : Candidate) (et : String)
    (h1 : missingFields p = []) (h2 : p.end_time = some et)
    (h3 : checkConflict env.queryResult (p.court.getD "人工芝") = true) :
    process env p = (Outcome.conflictReply, [Effect.conflictNotified])
    ∧ Effect.conflictNotified ∈ (process env p).2
    ∧ ∀ s, Effect.calendarCreated s ∉ (process env p).2
        ∧ Effect.ledgerAppended s ∉ (process env p).2 := by
  have hp : process env p = (Outcome.conflictReply, [Effect.conflictNotified]) := by
    simp [process, h1, h2, h3]
  refine ⟨hp, by rw [hp]; simp, fun s => ⟨by rw [hp]; simp, by rw [hp]; simp⟩⟩

def conflictEnv : ExtEnv :=
  { queryResult := Except.ok [{ id := "e1", summary := "【人工芝】佐藤様" }]
    createResult := Except.ok "new1"
    appendResult := Except.ok 2 }

/-- C8 witness -/
theorem conflict_rejected_witness :
    process conflictEnv fullCand = (Outcome.conflictReply, [Effect.conflictNotified]) :=
  (conflict_rejected_with_notification conflictEnv fullCand "11:00"
    (by decide) (by decide) (by decide)).1

theorem foldl_summaryStep (year month : Int) (rows : List (List String)) (a b c : Int) :
    rows.foldl (summaryStep year month) (a, b, c) =
      (a + ((rows.filter
          (fun r => rowInMonth r year month && !(rowStatus r == "キャンセル"))).length : Int),
       b + ((rows.filter
          (fun r => rowInMonth r year month && (rowStatus r == "キャンセル"))).length : Int),
       c + ((rows.filter
          (fun r => rowInMonth r year month && !(rowStatus r == "キャンセル"))).map feeCell).sum) := by
  induction rows generalizing a b c with
  | nil => simp
  | cons r rs ih =>
    rw [List.foldl_cons]
    by_cases hm : rowInMonth r year month = true
    · by_cases hs : rowStatus r = "キャンセル"
      · rw [show summaryStep year month (a, b, c) r = (a, b + 1, c) by
          simp [summaryStep, hm, hs]]
        rw [ih]
        simp [List.filter_cons, hm, hs]
        omega
      · rw [show summaryStep year month (a, b, c) r = (a + 1, b, c + feeCell r) by
          simp [summaryStep, hm, hs]]
        rw [ih]
        simp [List.filter_cons, hm, hs]
        constructor
        · omega
        · omega
    · rw [show summaryStep year month (a, b, c) r = (a, b, c) by
        simp [summaryStep, hm]]
      rw [ih]
      simp [List.filter_cons, hm]

/-- C9 -/
theorem monthly_summary_partitions (rows : List (List String)) (year month : Int) :
    (getMonthlySummary rows year month).count =
      ((rows.filter
        (fun r => rowInMonth r year month && !(rowStatus r == "キャンセル"))).length : Int)
    ∧ (getMonthlySummary rows year month).cancelled =
      ((rows.filter
        (fun r => rowInMonth r year month && (rowStatus r == "キャンセル"))).length : Int)
    ∧ (getMonthlySummary rows year month).total_fee =
      ((rows.filter
        (fun r => rowInMonth r year month && !(rowStatus r == "キャンセル"))).map feeCell).sum
    ∧ (getMonthlySummary rows year month).year = year
    ∧ (getMonthlySummary rows year month).month = month
    ∧ (∀ r : List String, pyInt (r.getD 12 "") = none → feeCell r = 0) := by
  have h := foldl_summaryStep year month rows 0 0 0
  refine ⟨?_, ?_, ?_, rfl, rfl, ?_⟩
  · show (rows.foldl (summaryStep year month) (0, 0, 0)).1 = _
    rw [h]; simp
  · show (rows.foldl (summaryStep year month) (0, 0, 0)).2.1 = _
    rw [h]; simp
  · show (rows.foldl (summaryStep year month) (0, 0, 0)).2.2 = _
    rw [h]; simp
  · intro r hnone
    unfold feeCell
    rw [hnone]
    split <;> rfl

def badRow : List String :=
  ["R9", "t", "2025-06-09", "月", "09:00", "11:00", "人工芝", "x", "p",
   "一般", "2", "12000", "oops", "平日", "確定", "cal9", ""]

/-- C9 witness -/
theorem monthly_summary_witness :
    pyInt (badRow.getD 12 "") = none ∧ feeCell badRow = 0 :=
  ⟨by decide,
   (monthly_summary_partitions [badRow] 2025 6).2.2.2.2.2 badRow (by decide)⟩

/-- C10 -/
theorem reads_capped_at_row_1000 (sheet extra : List (List String))
    (today : String) (year month : Int) (h : 1000 ≤ sheet.length) :
    readSheetRange (sheet ++ extra) = readSheetRange sheet
    ∧ getTodayFromSheet (sheet ++ extra) today = getTodayFromSheet sheet today
    ∧ getMonthlyFromSheet (sheet ++ extra) year month
        = getMonthlyFromSheet sheet year month := by
  have hr : readSheetRange (sheet ++ extra) = readSheetRange sheet := by
    unfold readSheetRange
    rw [List.drop_append_of_le_length (by omega)]
    rw [List.take_append_of_le_length (by simp; omega)]
  exact ⟨hr, by unfold getTodayFromSheet; rw [hr],
    by unfold getMonthlyFromSheet; rw [hr]⟩

def capRow : List String :=
  ["R1", "t", "2025-06-01", "日", "09:00", "11:00", "人工芝", "a", "p",
   "一般", "2", "12000", "24000", "平日", "確定", "c1", ""]

def bigSheet : List (List String) := List.replicate 1000 capRow

/-- C10 witness -/
theorem reads_capped_witness :
    readSheetRange (bigSheet ++ [capRow]) = readSheetRange bigSheet
    ∧ getTodayFromSheet (bigSheet ++ [capRow]) "2025-06-01"
        = getTodayFromSheet bigSheet "2025-06-01"
    ∧ getMonthlyFromSheet (bigSheet ++ [capRow]) 2025 6
        = getMonthlyFromSheet bigSheet 2025 6 :=
  reads_capped_at_row_1000 bigSheet [capRow] "2025-06-01" 2025 6
    (by unfold bigSheet; rw [List.length_replicate])

end LineBot
